import Mathlib

/-!
Verification development for the serverless LLM manager's session and
streaming-relay subsystems.  Definitions are shallow embeddings of the
JavaScript source: `server.js` (the `POST /generate-stream` handler),
`session-manager.js` (session path construction and the session
middleware) and `gemma-client.js` (`transformHistoryToMessages`).
-/

namespace SLM

/-! ## JSON values and `JSON.parse`

The upstream model service answers with newline-delimited JSON fragments
which `server.js` decodes with `JSON.parse` (line 253).  We embed JSON
values and a parser for the ECMA-404 grammar that `JSON.parse` accepts.
Numbers keep their source lexeme: the stream handler never does arithmetic
on them, it only tests truthiness (zero mantissa = falsy). -/

inductive Json where
  | null
  | bool (b : Bool)
  | num (raw : String)
  | str (s : String)
  | arr (xs : List Json)
  | obj (kvs : List (String × Json))

/-- JSON insignificant whitespace (space, tab, line feed, carriage return). -/
def isJsonWs (c : Char) : Bool :=
  c = ' ' || c = '\t' || c = '\n' || c = '\r'

def skipWs (cs : List Char) : List Char :=
  cs.dropWhile isJsonWs

def hexVal (c : Char) : Option Nat :=
  if '0' ≤ c && c ≤ '9' then some (c.toNat - 48)
  else if 'a' ≤ c && c ≤ 'f' then some (c.toNat - 97 + 10)
  else if 'A' ≤ c && c ≤ 'F' then some (c.toNat - 65 + 10)
  else none

/-- Body of a JSON string literal, after the opening quote.  Returns the
decoded characters and the remaining input after the closing quote.
A `\uXXXX` escape yields the scalar with that code (lone surrogates,
which Lean's `Char` cannot carry, are approximated by `Char.ofNat`'s
fallback; no claim exercises them). -/
def parseStringBody : Nat → List Char → List Char → Option (String × List Char)
  | 0, _, _ => none
  | _ + 1, [], _ => none
  | fuel + 1, c :: rest, acc =>
    if c = '"' then some (String.mk acc.reverse, rest)
    else if c = '\\' then
      match rest with
      | [] => none
      | e :: rest' =>
        if e = '"' then parseStringBody fuel rest' ('"' :: acc)
        else if e = '\\' then parseStringBody fuel rest' ('\\' :: acc)
        else if e = '/' then parseStringBody fuel rest' ('/' :: acc)
        else if e = 'b' then parseStringBody fuel rest' ('\x08' :: acc)
        else if e = 'f' then parseStringBody fuel rest' ('\x0c' :: acc)
        else if e = 'n' then parseStringBody fuel rest' ('\n' :: acc)
        else if e = 'r' then parseStringBody fuel rest' ('\r' :: acc)
        else if e = 't' then parseStringBody fuel rest' ('\t' :: acc)
        else if e = 'u' then
          match rest' with
          | h1 :: h2 :: h3 :: h4 :: rest'' =>
            match hexVal h1, hexVal h2, hexVal h3, hexVal h4 with
            | some a, some b, some c', some d =>
              parseStringBody fuel rest'' (Char.ofNat (a * 4096 + b * 256 + c' * 16 + d) :: acc)
            | _, _, _, _ => none
          | _ => none
        else none
    else if c.toNat < 32 then none
    else parseStringBody fuel rest (c :: acc)

def takeDigits (cs : List Char) : List Char × List Char :=
  (cs.takeWhile Char.isDigit, cs.dropWhile Char.isDigit)

/-- Lex one JSON number (`-? (0|[1-9][0-9]*) (.[0-9]+)? ([eE][+-]?[0-9]+)?`),
returning the raw lexeme and the remaining input. -/
def parseNumberLex (cs : List Char) : Option (String × List Char) :=
  let (neg, cs1) := match cs with
    | '-' :: rest => (['-'], rest)
    | _ => (([] : List Char), cs)
  match cs1 with
  | [] => none
  | c :: rest =>
    if !c.isDigit then none
    else
      let (intPart, afterInt) :=
        if c = '0' then ([c], rest)
        else (c :: (takeDigits rest).1, (takeDigits rest).2)
      let (fracPart, afterFrac) :=
        match afterInt with
        | '.' :: ds =>
          let (fd, rest') := takeDigits ds
          if fd = [] then ([('?' : Char)], afterInt) else ('.' :: fd, rest')
        | _ => ([], afterInt)
      if fracPart = ['?'] then none
      else
        let (expPart, afterExp) :=
          match afterFrac with
          | e :: es =>
            if e = 'e' || e = 'E' then
              let (sgn, es') := match es with
                | '+' :: t => (['+'], t)
                | '-' :: t => (['-'], t)
                | _ => (([] : List Char), es)
              let (ed, rest') := takeDigits es'
              if ed = [] then ([('?' : Char)], afterFrac)
              else (e :: (sgn ++ ed), rest')
            else ([], afterFrac)
          | [] => ([], afterFrac)
        if expPart = ['?'] then none
        else some (String.mk (neg ++ intPart ++ fracPart ++ expPart), afterExp)

/-- Matches a literal keyword (`true` / `false` / `null`) prefix. -/
def stripKeyword (kw : List Char) (cs : List Char) : Option (List Char) :=
  match kw, cs with
  | [], rest => some rest
  | k :: kt, c :: ct => if k = c then stripKeyword kt ct else none
  | _ :: _, [] => none

mutual

/-- Recursive-descent JSON value parser (fuel-bounded; the fuel passed by
`Json.parse` always suffices since every recursive call follows the
consumption of at least one input character). -/
def parseValue : Nat → List Char → Option (Json × List Char)
  | 0, _ => none
  | fuel + 1, cs =>
    match skipWs cs with
    | [] => none
    | c :: rest =>
      if c = '"' then
        match parseStringBody (rest.length + 1) rest [] with
        | some (s, rest') => some (.str s, rest')
        | none => none
      else if c = '{' then parseObjectRest fuel rest
      else if c = '[' then parseArrayRest fuel rest
      else if c = 't' then
        (stripKeyword ['r', 'u', 'e'] rest).map (fun r => (.bool true, r))
      else if c = 'f' then
        (stripKeyword ['a', 'l', 's', 'e'] rest).map (fun r => (.bool false, r))
      else if c = 'n' then
        (stripKeyword ['u', 'l', 'l'] rest).map (fun r => (.null, r))
      else
        (parseNumberLex (c :: rest)).map (fun (raw, r) => (.num raw, r))

/-- Parses the remainder of an object after its `{`. -/
def parseObjectRest : Nat → List Char → Option (Json × List Char)
  | 0, _ => none
  | fuel + 1, cs =>
    match skipWs cs with
    | '}' :: rest => some (.obj [], rest)
    | cs' => parseMembers fuel cs' []

/-- Parses `"key": value (, "key": value)* }` member lists. -/
def parseMembers : Nat → List Char → List (String × Json) → Option (Json × List Char)
  | 0, _, _ => none
  | fuel + 1, cs, acc =>
    match skipWs cs with
    | '"' :: rest =>
      match parseStringBody (rest.length + 1) rest [] with
      | none => none
      | some (key, rest') =>
        match skipWs rest' with
        | ':' :: rest'' =>
          match parseValue fuel rest'' with
          | none => none
          | some (v, rest''') =>
            match skipWs rest''' with
            | ',' :: more => parseMembers fuel more ((key, v) :: acc)
            | '}' :: more => some (.obj ((key, v) :: acc).reverse, more)
            | _ => none
        | _ => none
    | _ => none

/-- Parses the remainder of an array after its `[`. -/
def parseArrayRest : Nat → List Char → Option (Json × List Char)
  | 0, _ => none
  | fuel + 1, cs =>
    match skipWs cs with
    | ']' :: rest => some (.arr [], rest)
    | cs' => parseElems fuel cs' []

/-- Parses `value (, value)* ]` element lists. -/
def parseElems : Nat → List Char → List Json → Option (Json × List Char)
  | 0, _, _ => none
  | fuel + 1, cs, acc =>
    match parseValue fuel cs with
    | none => none
    | some (v, rest) =>
      match skipWs rest with
      | ',' :: more => parseElems fuel more (v :: acc)
      | ']' :: more => some (.arr (v :: acc).reverse, more)
      | _ => none

end

/-- Embeds `JSON.parse`: parses one JSON value and requires the whole
input (up to trailing whitespace) to be consumed; any violation is the
thrown `SyntaxError`, embedded as `none`. -/
def Json.parse (s : String) : Option Json :=
  match parseValue (2 * s.data.length + 2) s.data with
  | some (j, rest) => if skipWs rest = [] then some j else none
  | none => none

/-! ## JavaScript value semantics used by the stream handler -/

/-- Whether a JSON number lexeme denotes zero (the only falsy number
`JSON.parse` can produce): the mantissa digits are all `0`. -/
def numIsZero (raw : String) : Bool :=
  ((raw.data.takeWhile (fun c => c ≠ 'e' && c ≠ 'E')).filter Char.isDigit).all (· = '0')

/-- ECMAScript ToBoolean on a `JSON.parse` result: `null`, `false`, `0`
and `""` are falsy; every object and array is truthy. -/
def jsTruthy : Json → Bool
  | .null => false
  | .bool b => b
  | .num raw => !numIsZero raw
  | .str s => s ≠ ""
  | .arr _ => true
  | .obj _ => true

/-- Property read `j[k]`: for objects, the last binding of the key wins
(as `JSON.parse` keeps the last duplicate); any other value has no own
properties, so the read yields `undefined`, embedded as `none`. -/
def getProp : Json → String → Option Json
  | .obj kvs, k => ((kvs.filter (fun kv => kv.1 = k)).getLast?).map Prod.snd
  | _, _ => none

/-- Truthiness of `j[k]` (`undefined` is falsy). -/
def truthyProp (j : Json) (k : String) : Bool :=
  match getProp j k with
  | some v => jsTruthy v
  | none => false

/-- ECMAScript ToString as used by `fullResponseAccumulator += content`.
Strings and booleans are exact; a number keeps its source lexeme and an
array joins its elements (both approximate ECMAScript's float/array
formatting; no fragment in the handler's domain of interest coerces a
non-string, since only truthy `message.content` values reach `+=`). -/
def jsScalarToString : Json → String
  | .str s => s
  | .bool true => "true"
  | .bool false => "false"
  | .null => ""
  | .num raw => raw
  | .arr _ => ""
  | .obj _ => "[object Object]"

def jsToString : Json → String
  | .str s => s
  | .bool true => "true"
  | .bool false => "false"
  | .null => "null"
  | .num raw => raw
  | .arr xs => String.intercalate "," (xs.map jsScalarToString)
  | .obj _ => "[object Object]"

/-! ## The `data` handler of `POST /generate-stream` (server.js 248-280)

Per inbound byte chunk the handler splits on `'\n'`, skips blank lines,
parses each remaining line with `JSON.parse`, appends truthy
`parsed.message.content` to `fullResponseAccumulator` while forwarding
it as a `data:` text event, and on truthy `parsed.done` emits one
`event: done` carrying the whole accumulator.  The `try`/`catch` wraps
the whole `forEach`, so a parse failure abandons the rest of that chunk. -/

inductive Event where
  | text (s : String)
  | done (full : String)
  | errorEv (msg : String)
deriving DecidableEq

/-- The extraction `parsed.message && parsed.message.content` (line 255):
yields the string the accumulator grows by, or `none` when the guard is
falsy. -/
def contentOf (j : Json) : Option String :=
  match getProp j "message" with
  | some m =>
    if jsTruthy m then
      match getProp m "content" with
      | some c => if jsTruthy c then some (jsToString c) else none
      | none => none
    else none
  | none => none

/-- Body of the per-line handler for one parsed fragment (lines 254-272):
the content branch first (accumulate + text event), then the `done`
branch (terminal event carrying the updated accumulator). -/
def applyFragment (acc : String) (j : Json) : String × List Event :=
  match contentOf j with
  | some c =>
    let acc' := acc ++ c
    if truthyProp j "done" then (acc', [Event.text c, Event.done acc'])
    else (acc', [Event.text c])
  | none =>
    if truthyProp j "done" then (acc, [Event.done acc]) else (acc, [])

/-- JavaScript `line.trim()` is empty: every character is trim-able
whitespace (ASCII subset of ECMAScript's TrimString; the claims use only
these). -/
def isBlankLine (line : String) : Bool :=
  line.data.all fun c =>
    c = ' ' || c = '\t' || c = '\n' || c = '\r' || c = '\x0b' || c = '\x0c'

/-- One `forEach` iteration (lines 251-273): blank lines are skipped
without parsing; `JSON.parse` failure is the thrown `SyntaxError`,
embedded as `none`. -/
def processLine (acc : String) (line : String) : Option (String × List Event) :=
  if isBlankLine line then some (acc, [])
  else
    match Json.parse line with
    | none => none
    | some j => some (applyFragment acc j)

/-- Runs the `forEach` over a chunk's lines.  A thrown parse error
propagates out of `forEach` into the `catch` (line 275), so the
remaining lines of this chunk are dropped while the accumulator keeps
the mutations already applied. -/
def runLines (acc : String) : List String → String × List Event
  | [] => (acc, [])
  | l :: rest =>
    match processLine acc l with
    | none => (acc, [])
    | some (acc', evs) =>
      let r := runLines acc' rest
      (r.1, evs ++ r.2)

/-- `chunk.toString().split('\n')` on the character list. -/
def splitNlChars : List Char → List (List Char)
  | [] => [[]]
  | c :: rest =>
    if c = '\n' then [] :: splitNlChars rest
    else
      match splitNlChars rest with
      | [] => [[c]]
      | l :: ls => (c :: l) :: ls

def splitNl (s : String) : List String :=
  (splitNlChars s.data).map String.mk

/-- One firing of the `data` handler on one inbound byte chunk. -/
def processChunk (acc : String) (chunk : String) : String × List Event :=
  runLines acc (splitNl chunk)

/-- The `data` handler over the whole sequence of inbound chunks,
threading `fullResponseAccumulator` and collecting the emitted events. -/
def processChunks (acc : String) : List String → String × List Event
  | [] => (acc, [])
  | c :: rest =>
    let r := processChunk acc c
    let r2 := processChunks r.1 rest
    (r2.1, r.2 ++ r2.2)

/-- The `data` handler seen at fragment granularity: each element is one
already-parsed non-blank NDJSON fragment. -/
def processFragments (acc : String) : List Json → String × List Event
  | [] => (acc, [])
  | j :: rest =>
    let r := applyFragment acc j
    let r2 := processFragments r.1 rest
    (r2.1, r.2 ++ r2.2)

/-! ## Turns and the `POST /generate-stream` request lifecycle -/

/-- One chat history entry (`currentEntry` in server.js): the prompt is
always set at construction (line 196) and exactly one of
`response`/`error` is assigned on the terminal path. -/
structure Turn where
  prompt : String
  response : Option String := none
  error : Option String := none
deriving DecidableEq

/-- JavaScript `String.prototype.trim` (ASCII whitespace subset). -/
def jsTrim (s : String) : String :=
  let ws := fun c =>
    c = ' ' || c = '\t' || c = '\n' || c = '\r' || c = '\x0b' || c = '\x0c'
  String.mk (((s.data.dropWhile ws).reverse.dropWhile ws).reverse)

/-- How the upstream byte stream terminates: a Node readable emits
exactly one of `end` (natural end-of-stream, also reached after a client
disconnect or after zero chunks) or `error` (transport failure). -/
inductive Terminal where
  | ended
  | failed (msg : String)
deriving DecidableEq

/-- What happens after validation passes: either the setup `try` block
throws before any stream exists (token fetch, file reads, upstream
rejection — server.js line 337), or a stream delivers some byte chunks
and then terminates. -/
inductive Upstream where
  | setupFailure (msg : String)
  | stream (chunks : List String) (t : Terminal)
deriving DecidableEq

/-- Observable outcome of one `POST /generate-stream` request:
the HTTP status of the committed response head, the SSE events written,
the final `chatHistory`, how many times `req.gemmaSession.save()` was
invoked, and whether the response stream was ended. -/
structure GenResult where
  status : Nat
  events : List Event
  chatHistory : List Turn
  saveAttempts : Nat
  streamEnded : Bool
deriving DecidableEq

/-- The `POST /generate-stream` handler (server.js 120-360) after form
parsing: SSE headers are committed with status 200 (line 152) before any
validation; `userPrompt = fields.prompt?.[0]?.trim()` (line 159) gates
the upstream call; the three terminal paths are the stream `end` handler
(282-306), the stream `error` handler (308-335) and the setup `catch`
(337-359).  `configUrl` is whether `CLOUD_RUN_GEMMA_URL` is set;
`imageCount` is `uploadedFiles.length`, which only decorates the prompt
recorded in history (line 193). -/
def generateStream (promptField : Option String) (configUrl : Bool)
    (imageCount : Nat) (up : Upstream) (history : List Turn) : GenResult :=
  let userPrompt := jsTrim (promptField.getD "")
  if userPrompt = "" then
    { status := 200, events := [Event.errorEv "Prompt is missing."],
      chatHistory := history, saveAttempts := 0, streamEnded := true }
  else if !configUrl then
    { status := 200, events := [Event.errorEv "Server configuration error."],
      chatHistory := history, saveAttempts := 0, streamEnded := true }
  else
    let promptForHistory :=
      if imageCount > 0 then
        userPrompt ++ " (+ " ++ Nat.repr imageCount ++ " image" ++
          (if imageCount > 1 then "s" else "") ++ ")"
      else userPrompt
    match up with
    | .setupFailure msg =>
      let em := "Failed to start generation: " ++ msg
      { status := 200, events := [Event.errorEv em],
        chatHistory := history ++ [{ prompt := promptForHistory, error := some em }],
        saveAttempts := 1, streamEnded := true }
    | .stream chunks t =>
      let r := processChunks "" chunks
      match t with
      | .ended =>
        { status := 200, events := r.2,
          chatHistory := history ++ [{ prompt := promptForHistory, response := some r.1 }],
          saveAttempts := 1, streamEnded := true }
      | .failed msg =>
        let em := "Stream error: " ++ msg
        { status := 200, events := r.2 ++ [Event.errorEv em],
          chatHistory := history ++ [{ prompt := promptForHistory, error := some em }],
          saveAttempts := 1, streamEnded := true }

/-! ## Identity & cookie codec

`session-manager.js` calls `sign`/`unsign` from the external
`cookie-signature` package (lines 176 and 205), which is not part of
`src/`. -/

/-- Decimal digit character. -/
def digitChar (n : Nat) : Char :=
  match n with
  | 0 => '0' | 1 => '1' | 2 => '2' | 3 => '3' | 4 => '4'
  | 5 => '5' | 6 => '6' | 7 => '7' | 8 => '8' | _ => '9'

def natDigitsAux : Nat → Nat → List Char → List Char
  | 0, _, acc => acc
  | fuel + 1, n, acc =>
    let acc' := digitChar (n % 10) :: acc
    if n < 10 then acc' else natDigitsAux fuel (n / 10) acc'

/-- Decimal rendering of a natural number (digit characters only). -/
def natDigits (n : Nat) : List Char :=
  natDigitsAux (n + 1) n []

/-- Modelled from the spec: the `cookie-signature` package's keyed MAC
("HMAC-style signature appended to the payload", §4.1) is outside
`src/`; it is modelled as a deterministic keyed digest of the payload,
which is what the round-trip and rejection contracts depend on. -/
def macNat (secret payload : List Char) : Nat :=
  (secret ++ '/' :: payload).foldl (fun h c => (h * 131 + c.toNat) % 1000003) 7

/-- Modelled from the spec: `sign(sessionId, secret) -> cookieValue`
appends the tamper-evident signature to the payload after a `.`
separator (§4.1; the signature itself never contains a `.`). -/
def cookieSign (val secret : String) : String :=
  String.mk (val.data ++ '.' :: natDigits (macNat secret.data val.data))

/-- Splits `l` as `pre ++ '.' :: suf` with `'.' ∉ suf` (the split at the
last dot that `unsign` uses to separate payload from signature). -/
def breakAtFirstDot : List Char → Option (List Char × List Char)
  | [] => none
  | c :: rest =>
    if c = '.' then some ([], rest)
    else (breakAtFirstDot rest).map fun p => (c :: p.1, p.2)

def lastDotSplit (l : List Char) : Option (List Char × List Char) :=
  (breakAtFirstDot l.reverse).map fun p => (p.2.reverse, p.1.reverse)

/-- Modelled from the spec: `unsign(cookieValue, secret) -> sessionId |
false` (§4.1) — recover the payload before the trailing signature,
re-sign it and compare; any mismatch or missing separator is the
distinct failure value (`none`, never an exception). -/
def cookieUnsign (input secret : String) : Option String :=
  match lastDotSplit input.data with
  | none => none
  | some p =>
    if (cookieSign (String.mk p.1) secret).data = input.data
    then some (String.mk p.1) else none

/-! ## Session store paths (session-manager.js 44-50) -/

/-- Hexadecimal digit in upper case (as `encodeURIComponent` emits). -/
def hexDigitUpper (n : Nat) : Char :=
  match n with
  | 0 => '0' | 1 => '1' | 2 => '2' | 3 => '3' | 4 => '4'
  | 5 => '5' | 6 => '6' | 7 => '7' | 8 => '8' | 9 => '9'
  | 10 => 'A' | 11 => 'B' | 12 => 'C' | 13 => 'D' | 14 => 'E' | _ => 'F'

/-- Characters `encodeURIComponent` leaves unescaped:
`A-Z a-z 0-9 - _ . ! ~ * ' ( )`. -/
def isUnreservedURI (c : Char) : Bool :=
  c.isAlpha || c.isDigit || c = '-' || c = '_' || c = '.' || c = '!' ||
    c = '~' || c = '*' || c.toNat = 39 || c = '(' || c = ')'

/-- UTF-8 encoding of one scalar value. -/
def utf8Bytes (c : Char) : List Nat :=
  let n := c.toNat
  if n < 128 then [n]
  else if n < 2048 then [192 + n / 64, 128 + n % 64]
  else if n < 65536 then [224 + n / 4096, 128 + n / 64 % 64, 128 + n % 64]
  else [240 + n / 262144, 128 + n / 4096 % 64, 128 + n / 64 % 64, 128 + n % 64]

/-- ECMAScript `encodeURIComponent`: unreserved characters pass through,
every other character is percent-encoded byte-wise in UTF-8. -/
def encodeURIComponent (s : String) : String :=
  String.mk (List.flatten (s.data.map fun c =>
    if isUnreservedURI c then [c]
    else List.flatten ((utf8Bytes c).map fun b =>
      ['%', hexDigitUpper (b / 16), hexDigitUpper (b % 16)])))

deriving instance DecidableEq for Except

def SESSION_FOLDER_ROOT : String := "sessions"

/-- `getSessionPath` (session-manager.js 44-50): throws when either id
is falsy, else returns
`` `${SESSION_FOLDER_ROOT}/${encodeURIComponent(userId)}/${encodeURIComponent(sessionId)}.json` ``. -/
def getSessionPath (userId sessionId : String) : Except String String :=
  if userId = "" || sessionId = "" then
    .error "UserId and SessionId are required to construct session path."
  else
    .ok (SESSION_FOLDER_ROOT ++ "/" ++ encodeURIComponent userId ++ "/" ++
      encodeURIComponent sessionId ++ ".json")

/-- The object key `loadSession` downloads (session-manager.js 59-65):
an empty `userId` returns `null` before any storage access (`none`);
otherwise the key comes from `getSessionPath`, whose throw propagates. -/
def loadObjectKey (userId sessionId : String) : Option (Except String String) :=
  if userId = "" then none else some (getSessionPath userId sessionId)

/-- The object key `saveSession` writes (session-manager.js 97-102):
an empty `userId` throws; otherwise the key comes from
`getSessionPath`. -/
def saveObjectKey (userId sessionId : String) : Except String String :=
  if userId = "" then .error "Cannot save session without userId."
  else getSessionPath userId sessionId

/-! ## The session middleware (session-manager.js 134-238) -/

/-- A loaded session record (after `loadSession`'s coercion the history
is always a list). -/
structure SessionData where
  chatHistory : List Turn
  createdAt : String
deriving DecidableEq

/-- `initializeSessionData` (session-manager.js 30-35). -/
def initSessionData (now : String) : SessionData :=
  { chatHistory := [], createdAt := now }

/-- What the attached handle's `save()` closure does: the missing-header
sentinel only logs (line 155), the normal closure persists to
`(userId, sessionId)` through `saveSession` (line 232). -/
inductive SaveBehavior where
  | blocked
  | persistTo (userId sessionId : String)
deriving DecidableEq

/-- The `req.gemmaSession` handle (session-manager.js 151-160 and
220-234). -/
structure GemmaSession where
  id : String
  userId : Option String
  chatHistory : List Turn
  saveBehavior : SaveBehavior
deriving DecidableEq

/-- Observable outcome of running the middleware on one request. -/
structure MwResult where
  session : GemmaSession
  cookieSet : Option String
  cookieCleared : Bool
  nextCalled : Bool
deriving DecidableEq

/-- The storage keys one `save()` call writes: the blocked sentinel
writes nothing (it logs and returns), the normal closure writes the
single object `saveSession` addresses (a throw writes nothing). -/
def saveEffect (s : GemmaSession) : List String :=
  match s.saveBehavior with
  | .blocked => []
  | .persistTo u sid =>
    match saveObjectKey u sid with
    | .ok k => [k]
    | .error _ => []

/-- Missing `X-User-ID` branch (session-manager.js 143-162): a sentinel
session with a fresh throwaway id, `userId: null`, empty history and a
log-only `save`, then `next()`. -/
def mwNoIdentity (freshId : String) : MwResult :=
  { session := { id := "invalid-session-" ++ freshId, userId := none,
                 chatHistory := [], saveBehavior := .blocked },
    cookieSet := none, cookieCleared := false, nextCalled := true }

/-- Valid cookie whose session id resolved (loaded or reinitialized):
keep the id, no cookie mutation (session-manager.js 177-187, 214-234). -/
def mwResumed (u sid : String) (d : SessionData) : MwResult :=
  { session := { id := sid, userId := some u, chatHistory := d.chatHistory,
                 saveBehavior := .persistTo u sid },
    cookieSet := none, cookieCleared := false, nextCalled := true }

/-- No usable cookie: mint `freshId`, initialize fresh data and send a
newly signed cookie (session-manager.js 196-212); `cleared` records
whether an invalid cookie was cleared first (line 190). -/
def mwNewSession (u secret freshId : String) (cleared : Bool) : MwResult :=
  { session := { id := freshId, userId := some u, chatHistory := [],
                 saveBehavior := .persistTo u freshId },
    cookieSet := some (cookieSign freshId secret), cookieCleared := cleared,
    nextCalled := true }

/-- `sessionMiddleware` (session-manager.js 134-238) as a function of
the request's inputs: the `X-User-ID` header, the raw session cookie,
the cookie secret, the store contents (`load u sid` is `loadSession`'s
result — `none` covers both "object missing" and a load error), the
`uuidv4()` that would be minted, and the current timestamp. -/
def sessionMiddleware (userIdHeader : Option String) (rawCookie : Option String)
    (secret : String) (load : String → String → Option SessionData)
    (freshId : String) (now : String) : MwResult :=
  match userIdHeader with
  | none => mwNoIdentity freshId
  | some u =>
    if u = "" then mwNoIdentity freshId
    else
      match rawCookie with
      | some c =>
        if c = "" then mwNewSession u secret freshId false
        else
          match cookieUnsign c secret with
          | some sid =>
            match load u sid with
            | none => mwResumed u sid (initSessionData now)
            | some d => mwResumed u sid d
          | none => mwNewSession u secret freshId true
      | none => mwNewSession u secret freshId false

/-! ## History-to-messages translation (gemma-client.js 37-59) -/

inductive Role where
  | user
  | assistant
deriving DecidableEq

structure Message where
  role : Role
  content : String
  images : Option (List String) := none
deriving DecidableEq

/-- JavaScript truthiness of an optional string field (absent and `""`
are falsy). -/
def optTruthy : Option String → Bool
  | some s => s ≠ ""
  | none => false

/-- `transformHistoryToMessages` (gemma-client.js 37-59): each history
entry contributes a user message when `entry.prompt` is truthy, and an
assistant message when `entry.response && !entry.error`; the current
prompt is appended last, carrying the images when a non-empty array was
given. -/
def transformHistoryToMessages (chatHistory : List Turn) (currentPrompt : String)
    (currentImages : Option (List String) := none) : List Message :=
  (chatHistory.map fun e =>
    (if e.prompt ≠ "" then [({ role := .user, content := e.prompt } : Message)] else []) ++
    (if optTruthy e.response && !optTruthy e.error then
      [({ role := .assistant, content := e.response.getD "" } : Message)] else [])).flatten
  ++ [{ role := .user, content := currentPrompt,
        images := match currentImages with
          | some l => if l ≠ [] then some l else none
          | none => none }]

/-! ## Specification-side definitions

These restate claim wordings independently of the handler code, for the
refinement/correction theorems below. -/

/-- The "full accumulated text": concatenation of the incremental texts
carried by a fragment sequence. -/
def concatContents : List Json → String
  | [] => ""
  | j :: rest => (contentOf j).getD "" ++ concatContents rest

/-- Claim C2's predicted event stream: each fragment carrying
incremental text contributes one discrete text event with that text, in
upstream order; each fragment carrying the terminal marker contributes
one terminal event whose payload is the full text accumulated up to and
including that fragment (not just the last delta). -/
def claimC2Events (acc : String) : List Json → List Event
  | [] => []
  | j :: rest =>
    let accAfter := acc ++ (contentOf j).getD ""
    (match contentOf j with
      | some c => [Event.text c]
      | none => []) ++
    (if truthyProp j "done" then [Event.done accAfter] else []) ++
    claimC2Events accAfter rest

/-- Claim C3's predicted translation, as stated: every past turn
contributes a user message with its prompt followed by an assistant
message with its response, except that a turn that ended in error
contributes only the user message; the current prompt is the final user
message. -/
def claimC3Translation (history : List Turn) (currentPrompt : String) : List Message :=
  (history.map fun e =>
    if e.error.isSome then [({ role := .user, content := e.prompt } : Message)]
    else [({ role := .user, content := e.prompt } : Message),
          ({ role := .assistant, content := e.response.getD "" } : Message)]).flatten
  ++ [{ role := .user, content := currentPrompt }]

/-- The amended translation: a turn that ended in error, or whose
response is empty or missing, contributes only the user message. -/
def claimC3Amended (history : List Turn) (currentPrompt : String) : List Message :=
  (history.map fun e =>
    if e.error.isSome || !optTruthy e.response then
      [({ role := .user, content := e.prompt } : Message)]
    else [({ role := .user, content := e.prompt } : Message),
          ({ role := .assistant, content := e.response.getD "" } : Message)]).flatten
  ++ [{ role := .user, content := currentPrompt }]

/-- Whether a line makes the `forEach` body throw: non-blank and
rejected by `JSON.parse`. -/
def lineFails (l : String) : Bool :=
  !isBlankLine l && (Json.parse l).isNone

/-! ## Concrete inputs from the claims -/

/-- The NDJSON line `{"message":{"content":"Hel"}}`. -/
def fragHelLine : String := "\x7b\"message\":\x7b\"content\":\"Hel\"\x7d\x7d"

/-- The NDJSON line `{"message":{"content":"lo"}}`. -/
def fragLoLine : String := "\x7b\"message\":\x7b\"content\":\"lo\"\x7d\x7d"

/-- The NDJSON line `{"done":true}`. -/
def fragDoneLine : String := "\x7b\"done\":true\x7d"

/-- The parsed fragment of `fragHelLine`. -/
def fragHelJson : Json :=
  Json.obj [("message", Json.obj [("content", Json.str "Hel")])]

/-- A byte chunk whose first line is malformed and whose second line is
a well-formed fragment carrying `"X"`. -/
def badChunkC4 : String :=
  "notjson\n\x7b\"message\":\x7b\"content\":\"X\"\x7d\x7d"

/-! ## Helper lemmas -/

theorem stringDataInj {a b : String} (h : a.data = b.data) : a = b := by
  cases a; cases b; exact congrArg String.mk h

theorem applyFragment_spec (acc : String) (j : Json) :
    applyFragment acc j =
      (acc ++ (contentOf j).getD "",
       (match contentOf j with
         | some c => [Event.text c]
         | none => []) ++
       (if truthyProp j "done" then [Event.done (acc ++ (contentOf j).getD "")]
        else [])) := by
  unfold applyFragment
  cases h : contentOf j with
  | none => by_cases hd : truthyProp j "done" <;> simp [hd]
  | some c => by_cases hd : truthyProp j "done" <;> simp [hd]

theorem processFragments_spec (js : List Json) :
    ∀ acc, processFragments acc js = (acc ++ concatContents js, claimC2Events acc js) := by
  induction js with
  | nil => intro acc; simp [processFragments, concatContents, claimC2Events]
  | cons j rest ih =>
    intro acc
    simp only [processFragments, claimC2Events, concatContents]
    rw [applyFragment_spec, ih]
    simp [String.append_assoc]

theorem processLine_none_iff (acc l : String) :
    processLine acc l = none ↔ lineFails l = true := by
  unfold processLine lineFails
  by_cases hb : isBlankLine l
  · simp [hb]
  · cases hp : Json.parse l <;> simp [hb, hp]

theorem runLines_takeWhile (ls : List String) :
    ∀ acc, runLines acc ls = runLines acc (ls.takeWhile fun l => !lineFails l) := by
  induction ls with
  | nil => intro acc; rfl
  | cons l rest ih =>
    intro acc
    by_cases hf : lineFails l
    · have h0 : processLine acc l = none := (processLine_none_iff acc l).2 hf
      simp [runLines, h0, List.takeWhile_cons, hf]
    · have hn : processLine acc l ≠ none := fun h => hf ((processLine_none_iff acc l).1 h)
      obtain ⟨p, hp⟩ := Option.ne_none_iff_exists'.1 hn
      simp [runLines, hp, List.takeWhile_cons, hf, ih]

theorem processChunks_append (cs₁ cs₂ : List String) :
    ∀ acc, processChunks acc (cs₁ ++ cs₂) =
      ((processChunks (processChunks acc cs₁).1 cs₂).1,
       (processChunks acc cs₁).2 ++ (processChunks (processChunks acc cs₁).1 cs₂).2) := by
  induction cs₁ with
  | nil => intro acc; simp [processChunks]
  | cons c rest ih => intro acc; simp [processChunks, ih, List.append_assoc]

theorem splitNlChars_no_newline (l : List Char) (h : '\n' ∉ l) : splitNlChars l = [l] := by
  induction l with
  | nil => rfl
  | cons c rest ih =>
    have hc : c ≠ '\n' := fun e => h (e ▸ List.mem_cons_self c rest)
    have hr : '\n' ∉ rest := fun m => h (List.mem_cons_of_mem c m)
    simp [splitNlChars, hc, ih hr]

theorem splitNl_no_newline (s : String) (h : '\n' ∉ s.data) : splitNl s = [s] := by
  cases s with
  | mk d => simp [splitNl, splitNlChars_no_newline d h]

theorem processChunks_wellFormed {chunks : List String} {js : List Json}
    (hw : List.Forall₂
      (fun c j => '\n' ∉ c.data ∧ isBlankLine c = false ∧ Json.parse c = some j)
      chunks js) :
    ∀ acc, processChunks acc chunks = processFragments acc js := by
  induction hw with
  | nil => intro acc; rfl
  | cons hcj _ ih =>
    intro acc
    obtain ⟨hn, hb, hp⟩ := hcj
    simp only [processChunks, processFragments, processChunk]
    rw [splitNl_no_newline _ hn]
    simp [runLines, processLine, hb, hp, ih]

@[simp]
theorem dataMk (l : List Char) : (String.mk l).data = l := rfl

theorem digitChar_ne_dot (n : Nat) : digitChar n ≠ '.' := by
  unfold digitChar; split <;> decide

theorem natDigitsAux_mem (fuel : Nat) :
    ∀ n acc c, c ∈ natDigitsAux fuel n acc → c ∈ acc ∨ ∃ k, c = digitChar k := by
  induction fuel with
  | zero => intro n acc c h; exact Or.inl h
  | succ f ih =>
    intro n acc c h
    simp only [natDigitsAux] at h
    by_cases hn : n < 10
    · simp only [hn, if_true, List.mem_cons] at h
      rcases h with h | h
      · exact Or.inr ⟨n % 10, h⟩
      · exact Or.inl h
    · simp only [hn, if_false] at h
      rcases ih (n / 10) (digitChar (n % 10) :: acc) c h with h' | h'
      · rcases List.mem_cons.mp h' with h'' | h''
        · exact Or.inr ⟨n % 10, h''⟩
        · exact Or.inl h''
      · exact Or.inr h'

theorem natDigits_ne_dot (n : Nat) {c : Char} (h : c ∈ natDigits n) : c ≠ '.' := by
  rcases natDigitsAux_mem (n + 1) n [] c h with h' | ⟨k, hk⟩
  · cases h'
  · exact hk ▸ digitChar_ne_dot k

theorem breakAtFirstDot_append (a b : List Char) (h : '.' ∉ a) :
    breakAtFirstDot (a ++ '.' :: b) = some (a, b) := by
  induction a with
  | nil => simp [breakAtFirstDot]
  | cons c rest ih =>
    have hc : c ≠ '.' := fun e => h (e ▸ List.mem_cons_self c rest)
    have hr : '.' ∉ rest := fun m => h (List.mem_cons_of_mem c m)
    simp [breakAtFirstDot, hc, ih hr]

theorem lastDotSplit_sign (v d : List Char) (hd : ∀ c ∈ d, c ≠ '.') :
    lastDotSplit (v ++ '.' :: d) = some (v, d) := by
  unfold lastDotSplit
  have hrev : '.' ∉ d.reverse := fun m => hd _ (List.mem_reverse.mp m) rfl
  have he : (v ++ '.' :: d).reverse = d.reverse ++ '.' :: v.reverse := by
    simp
  rw [he, breakAtFirstDot_append _ _ hrev]
  simp

theorem cookieUnsign_cookieSign (id secret : String) :
    cookieUnsign (cookieSign id secret) secret = some id := by
  cases id with
  | mk d =>
    unfold cookieUnsign cookieSign
    rw [dataMk, lastDotSplit_sign d (natDigits (macNat secret.data d))
      (fun c hc => natDigits_ne_dot _ hc)]
    simp

theorem cookieUnsign_only_signed (v s p : String) (h : cookieUnsign v s = some p) :
    v = cookieSign p s := by
  unfold cookieUnsign at h
  cases hs : lastDotSplit v.data with
  | none => rw [hs] at h; cases h
  | some pr =>
    rw [hs] at h
    by_cases he : (cookieSign (String.mk pr.1) s).data = v.data
    · have hp : String.mk pr.1 = p := by simpa [he] using h
      exact (stringDataInj (hp ▸ he)).symm
    · simp [he] at h

theorem entry_messages_amended (e : Turn) (hp : e.prompt ≠ "") (he : e.error ≠ some "") :
    ((if e.prompt ≠ "" then [({ role := .user, content := e.prompt } : Message)] else []) ++
     (if optTruthy e.response && !optTruthy e.error then
       [({ role := .assistant, content := e.response.getD "" } : Message)] else [])) =
    (if e.error.isSome || !optTruthy e.response then
       [({ role := .user, content := e.prompt } : Message)]
     else [({ role := .user, content := e.prompt } : Message),
           ({ role := .assistant, content := e.response.getD "" } : Message)]) := by
  cases her : e.error with
  | none => cases hr : optTruthy e.response <;> simp [hp, her, optTruthy, hr]
  | some s =>
    have hs : s ≠ "" := fun h => he (by rw [her, h])
    simp [hp, her, optTruthy, hs]

/-! ## Claim theorems -/

/-- C1: for every streaming request that passes input validation and
reaches the upstream call, exactly one Turn is appended to the session's
`chatHistory` and exactly one save is attempted, on every terminal path
(setup failure, any chunk sequence ending naturally — including zero
chunks, a mid-stream disconnect or parse errors — and stream error), and
the appended Turn has exactly one of `response`/`error` set. -/
theorem stream_request_appends_exactly_one_turn
    (promptField : Option String) (imageCount : Nat) (up : Upstream)
    (history : List Turn) (hp : jsTrim (promptField.getD "") ≠ "") :
    (∃ t, (generateStream promptField true imageCount up history).chatHistory
        = history ++ [t] ∧
      ((t.response ≠ none ∧ t.error = none) ∨ (t.error ≠ none ∧ t.response = none))) ∧
    (generateStream promptField true imageCount up history).saveAttempts = 1 := by
  cases up with
  | setupFailure msg => simp [generateStream, hp]
  | stream chunks t => cases t <;> simp [generateStream, hp]

/-- Witness for C1 at a concrete request: prompt `"hi"`, one fragment
chunk, natural end. -/
theorem stream_request_appends_exactly_one_turn_witness :
    jsTrim ((some "hi" : Option String).getD "") ≠ "" ∧
    ((∃ t, (generateStream (some "hi") true 0
        (Upstream.stream [fragHelLine] Terminal.ended) []).chatHistory = [] ++ [t] ∧
      ((t.response ≠ none ∧ t.error = none) ∨ (t.error ≠ none ∧ t.response = none))) ∧
     (generateStream (some "hi") true 0
        (Upstream.stream [fragHelLine] Terminal.ended) []).saveAttempts = 1) :=
  ⟨by decide,
   stream_request_appends_exactly_one_turn (some "hi") 0
     (Upstream.stream [fragHelLine] Terminal.ended) [] (by decide)⟩

/-- C2: every fragment carrying incremental text is forwarded as one
discrete text event in upstream order while being appended to the
accumulator, and a fragment carrying the terminal marker emits exactly
one terminal event holding the full accumulated text; in particular the
fragments `{"message":{"content":"Hel"}}`, `{"message":{"content":"lo"}}`,
`{"done":true}` produce the two text events in order followed by one
terminal event carrying `"Hello"`. -/
theorem stream_fragments_forwarded_in_order :
    (∀ (frags : List Json) (acc : String),
       processFragments acc frags = (acc ++ concatContents frags, claimC2Events acc frags)) ∧
    processChunks "" [fragHelLine, fragLoLine, fragDoneLine] =
      ("Hello", [Event.text "Hel", Event.text "lo", Event.done "Hello"]) :=
  ⟨fun frags acc => processFragments_spec frags acc, by decide⟩

/-- C4, counterexample: in the chunk `"notjson\n{"message":{"content":"X"}}"`
the parse failure on the first line makes the handler drop the valid
second line as well — nothing is accumulated and no event is emitted,
refuting "only that line is skipped — the remaining lines of the stream
are still processed". -/
theorem malformed_line_drops_chunk_remainder_cex :
    processChunks "" [badChunkC4] = ("", []) ∧
    processChunks "" [badChunkC4] ≠ ("X", [Event.text "X"]) := by decide

/-- C4, amended: a parse failure on one line aborts the remaining lines
of that same byte chunk only (each chunk processes exactly its lines up
to the first throwing line), while subsequent chunks are still processed
from the accumulated state — the stream itself is never aborted. -/
theorem malformed_line_aborts_chunk_only :
    (∀ (acc chunk : String),
       processChunk acc chunk =
         runLines acc ((splitNl chunk).takeWhile fun l => !lineFails l)) ∧
    (∀ (acc : String) (cs₁ cs₂ : List String),
       processChunks acc (cs₁ ++ cs₂) =
         ((processChunks (processChunks acc cs₁).1 cs₂).1,
          (processChunks acc cs₁).2 ++ (processChunks (processChunks acc cs₁).1 cs₂).2)) :=
  ⟨fun acc chunk => runLines_takeWhile (splitNl chunk) acc,
   fun acc cs₁ cs₂ => processChunks_append cs₁ cs₂ acc⟩

/-- C8: when the upstream byte stream ends naturally without a terminal
marker, the committed Turn's `response` is exactly the text accumulated
from the well-formed fragments received so far (possibly empty). -/
theorem natural_end_commits_accumulated_text
    (promptField : Option String) (imageCount : Nat) (chunks : List String)
    (js : List Json) (history : List Turn)
    (hp : jsTrim (promptField.getD "") ≠ "")
    (hw : List.Forall₂
      (fun c j => '\n' ∉ c.data ∧ isBlankLine c = false ∧ Json.parse c = some j)
      chunks js) :
    ∃ t, (generateStream promptField true imageCount
        (Upstream.stream chunks Terminal.ended) history).chatHistory
      = history ++ [t] ∧ t.response = some (concatContents js) ∧ t.error = none := by
  have hacc : (processChunks "" chunks).1 = concatContents js := by
    rw [processChunks_wellFormed hw "", processFragments_spec js ""]
    simp
  simp [generateStream, hp, hacc]

/-- Witness for C8 at the claim's input: only
`{"message":{"content":"Hel"}}` arrives, then the stream ends; the
committed Turn's response is `"Hel"`. -/
theorem natural_end_commits_accumulated_text_witness :
    (jsTrim ((some "hi" : Option String).getD "") ≠ "" ∧
     List.Forall₂
       (fun c j => '\n' ∉ c.data ∧ isBlankLine c = false ∧ Json.parse c = some j)
       [fragHelLine] [fragHelJson]) ∧
    (∃ t, (generateStream (some "hi") true 0
        (Upstream.stream [fragHelLine] Terminal.ended) []).chatHistory
      = [] ++ [t] ∧ t.response = some "Hel" ∧ t.error = none) :=
  ⟨⟨by decide, List.Forall₂.cons ⟨by decide, by rfl, by rfl⟩ List.Forall₂.nil⟩,
   by exact natural_end_commits_accumulated_text (some "hi") 0 [fragHelLine]
        [fragHelJson] [] (by decide)
        (List.Forall₂.cons ⟨by decide, by rfl, by rfl⟩ List.Forall₂.nil)⟩

/-- C10: a stream request whose prompt is missing or empty after
trimming is answered with one error event over the already-committed
200 event stream and closed, with no Turn appended and no save
attempted. -/
theorem empty_prompt_rejected_without_append_or_save
    (promptField : Option String) (configUrl : Bool) (imageCount : Nat)
    (up : Upstream) (history : List Turn)
    (hp : jsTrim (promptField.getD "") = "") :
    generateStream promptField configUrl imageCount up history =
      { status := 200, events := [Event.errorEv "Prompt is missing."],
        chatHistory := history, saveAttempts := 0, streamEnded := true } := by
  simp [generateStream, hp]

/-- Witness for C10 at the concrete inputs "no prompt field" and
"whitespace-only prompt". -/
theorem empty_prompt_rejected_without_append_or_save_witness :
    (jsTrim ((none : Option String).getD "") = "" ∧
     generateStream none true 0 (Upstream.stream [] Terminal.ended) [] =
       { status := 200, events := [Event.errorEv "Prompt is missing."],
         chatHistory := [], saveAttempts := 0, streamEnded := true }) ∧
    (jsTrim ((some "  " : Option String).getD "") = "" ∧
     generateStream (some "  ") true 2 (Upstream.setupFailure "boom") [] =
       { status := 200, events := [Event.errorEv "Prompt is missing."],
         chatHistory := [], saveAttempts := 0, streamEnded := true }) :=
  ⟨⟨rfl, empty_prompt_rejected_without_append_or_save none true 0
      (Upstream.stream [] Terminal.ended) [] rfl⟩,
   ⟨by decide, empty_prompt_rejected_without_append_or_save (some "  ") true 2
      (Upstream.setupFailure "boom") [] (by decide)⟩⟩

/-- C5: unsigning a value signed with the same secret returns exactly
the signed session id; `unsign` accepts only validly signed values,
answering every tampered value or wrong secret with the distinct failure
value `none` (it is a total function — never an exception); and the
middleware treats an unsign failure as "no valid session" without
crashing: it clears the cookie, mints the fresh id and continues. -/
theorem cookie_codec_round_trip_and_rejects_tampering :
    (∀ id secret : String, cookieUnsign (cookieSign id secret) secret = some id) ∧
    (∀ v s p : String, cookieUnsign v s = some p → v = cookieSign p s) ∧
    (∀ (u c secret : String) (load : String → String → Option SessionData)
       (freshId now : String), u ≠ "" → c ≠ "" → cookieUnsign c secret = none →
       (sessionMiddleware (some u) (some c) secret load freshId now).cookieCleared = true ∧
       (sessionMiddleware (some u) (some c) secret load freshId now).session.id = freshId ∧
       (sessionMiddleware (some u) (some c) secret load freshId now).nextCalled = true) := by
  refine ⟨cookieUnsign_cookieSign, cookieUnsign_only_signed, ?_⟩
  intro u c secret load freshId now hu hc hun
  simp [sessionMiddleware, hu, hc, hun, mwNewSession]

/-- Witness for C5: round trip at `("sid-123", "topsecret")`; the
only-signed-values property at a concretely signed cookie; rejection of
the dot-free value `"garbage"` driving the middleware to a fresh
session. -/
theorem cookie_codec_round_trip_and_rejects_tampering_witness :
    cookieUnsign (cookieSign "sid-123" "topsecret") "topsecret" = some "sid-123" ∧
    cookieSign "x" "k" = cookieSign "x" "k" ∧
    (("u1" : String) ≠ "" ∧ ("garbage" : String) ≠ "" ∧
     cookieUnsign "garbage" "k" = none ∧
     (sessionMiddleware (some "u1") (some "garbage") "k"
        (fun _ _ => none) "fresh-1" "t0").cookieCleared = true ∧
     (sessionMiddleware (some "u1") (some "garbage") "k"
        (fun _ _ => none) "fresh-1" "t0").session.id = "fresh-1" ∧
     (sessionMiddleware (some "u1") (some "garbage") "k"
        (fun _ _ => none) "fresh-1" "t0").nextCalled = true) :=
  ⟨cookie_codec_round_trip_and_rejects_tampering.1 "sid-123" "topsecret",
   cookie_codec_round_trip_and_rejects_tampering.2.1 (cookieSign "x" "k") "k" "x"
     (by decide),
   by decide, by decide, by decide,
   cookie_codec_round_trip_and_rejects_tampering.2.2 "u1" "garbage" "k"
     (fun _ _ => none) "fresh-1" "t0" (by decide) (by decide) (by decide)⟩

/-- C6: a validly signed cookie whose backing session object is missing
from the store (or whose load failed — both are `none` here) resolves to
a handle with the cookie's own `sessionId` and empty `chatHistory`, with
no new cookie issued and no cookie cleared. -/
theorem load_miss_keeps_session_id
    (u c secret sid : String) (load : String → String → Option SessionData)
    (freshId now : String) (hu : u ≠ "") (hc : c ≠ "")
    (hun : cookieUnsign c secret = some sid) (hmiss : load u sid = none) :
    (sessionMiddleware (some u) (some c) secret load freshId now).session.id = sid ∧
    (sessionMiddleware (some u) (some c) secret load freshId now).session.chatHistory = [] ∧
    (sessionMiddleware (some u) (some c) secret load freshId now).cookieSet = none ∧
    (sessionMiddleware (some u) (some c) secret load freshId now).cookieCleared = false := by
  simp [sessionMiddleware, hu, hc, hun, hmiss, mwResumed, initSessionData]

/-- Witness for C6 at a concrete request: user "alice", cookie signed
over session id "sess-9", empty store. -/
theorem load_miss_keeps_session_id_witness :
    (("alice" : String) ≠ "" ∧ cookieSign "sess-9" "k" ≠ "" ∧
     cookieUnsign (cookieSign "sess-9" "k") "k" = some "sess-9") ∧
    ((sessionMiddleware (some "alice") (some (cookieSign "sess-9" "k")) "k"
        (fun _ _ => none) "fresh-1" "t0").session.id = "sess-9" ∧
     (sessionMiddleware (some "alice") (some (cookieSign "sess-9" "k")) "k"
        (fun _ _ => none) "fresh-1" "t0").session.chatHistory = [] ∧
     (sessionMiddleware (some "alice") (some (cookieSign "sess-9" "k")) "k"
        (fun _ _ => none) "fresh-1" "t0").cookieSet = none ∧
     (sessionMiddleware (some "alice") (some (cookieSign "sess-9" "k")) "k"
        (fun _ _ => none) "fresh-1" "t0").cookieCleared = false) :=
  ⟨⟨by decide, by decide, by decide⟩,
   load_miss_keeps_session_id "alice" (cookieSign "sess-9" "k") "k" "sess-9"
     (fun _ _ => none) "fresh-1" "t0" (by decide) (by decide) (by decide) rfl⟩

/-- C7: a request without the identity header gets the sentinel session
handle whose `save()` is a log-only no-op — it writes nothing to the
remote store — while the request continues through `next()`. -/
theorem missing_identity_save_never_writes
    (rawCookie : Option String) (secret : String)
    (load : String → String → Option SessionData) (freshId now : String) :
    (sessionMiddleware none rawCookie secret load freshId now).session.saveBehavior
      = SaveBehavior.blocked ∧
    saveEffect (sessionMiddleware none rawCookie secret load freshId now).session = [] ∧
    (sessionMiddleware none rawCookie secret load freshId now).nextCalled = true ∧
    (sessionMiddleware none rawCookie secret load freshId now).session.id
      = "invalid-session-" ++ freshId := by
  simp [sessionMiddleware, mwNoIdentity, saveEffect]

/-- C9, counterexample: the storage key for user `"u"` and session `"s"`
is `"sessions/u/s.json"`, not the claimed verbatim percent-encoded
`sessions/{userId}/{sessionId}` (both ids here are their own
percent-encodings). -/
theorem session_path_json_suffix_cex :
    getSessionPath "u" "s" = Except.ok "sessions/u/s.json" ∧
    encodeURIComponent "u" = "u" ∧ encodeURIComponent "s" = "s" ∧
    getSessionPath "u" "s" ≠
      Except.ok ("sessions/" ++ encodeURIComponent "u" ++ "/" ++ encodeURIComponent "s") := by
  decide

/-- C9, amended: for every non-empty userId and sessionId, both load and
save address the single object
`sessions/{encodeURIComponent(userId)}/{encodeURIComponent(sessionId)}.json`. -/
theorem session_path_amended (u s : String) (hu : u ≠ "") (hs : s ≠ "") :
    loadObjectKey u s =
      some (Except.ok ("sessions/" ++ encodeURIComponent u ++ "/" ++
        encodeURIComponent s ++ ".json")) ∧
    saveObjectKey u s =
      Except.ok ("sessions/" ++ encodeURIComponent u ++ "/" ++
        encodeURIComponent s ++ ".json") := by
  simp [loadObjectKey, saveObjectKey, getSessionPath, hu, hs, SESSION_FOLDER_ROOT]

/-- Witness for C9's amended claim at `("alice", "sid 1")`, whose
session id percent-encodes to `"sid%201"`. -/
theorem session_path_amended_witness :
    (loadObjectKey "alice" "sid 1" =
       some (Except.ok ("sessions/" ++ encodeURIComponent "alice" ++ "/" ++
         encodeURIComponent "sid 1" ++ ".json")) ∧
     saveObjectKey "alice" "sid 1" =
       Except.ok ("sessions/" ++ encodeURIComponent "alice" ++ "/" ++
         encodeURIComponent "sid 1" ++ ".json")) ∧
    encodeURIComponent "sid 1" = "sid%201" ∧
    saveObjectKey "alice" "sid 1" = Except.ok "sessions/alice/sid%201.json" :=
  ⟨session_path_amended "alice" "sid 1" (by decide) (by decide), by decide, by decide⟩

/-- C3, counterexample: a turn whose `response` is the empty string did
not end in error, so the claim predicts a user message followed by an
(empty) assistant message; the code contributes only the user message
because `entry.response` is falsy. -/
theorem history_translation_empty_response_cex :
    transformHistoryToMessages [{ prompt := "a", response := some "" }] "d" none ≠
      claimC3Translation [{ prompt := "a", response := some "" }] "d" ∧
    transformHistoryToMessages [{ prompt := "a", response := some "" }] "d" none =
      [{ role := .user, content := "a" }, { role := .user, content := "d" }] ∧
    claimC3Translation [{ prompt := "a", response := some "" }] "d" =
      [{ role := .user, content := "a" }, { role := .assistant, content := "" },
       { role := .user, content := "d" }] := by
  decide

/-- C3, amended: for every history whose turns have non-empty prompts
and whose error, when set, is non-empty, the translation yields, per
turn, a user message with its prompt followed by an assistant message
with its response — except that a turn that ended in error, or whose
response is empty or missing, contributes only the user message — with
the current prompt appended as the final user message. -/
theorem history_translation_amended (history : List Turn) (currentPrompt : String)
    (h : ∀ e ∈ history, e.prompt ≠ "" ∧ e.error ≠ some "") :
    transformHistoryToMessages history currentPrompt none =
      claimC3Amended history currentPrompt := by
  have hmap : (history.map fun e =>
      (if e.prompt ≠ "" then [({ role := .user, content := e.prompt } : Message)] else []) ++
      (if optTruthy e.response && !optTruthy e.error then
        [({ role := .assistant, content := e.response.getD "" } : Message)] else [])) =
      history.map fun e =>
        if e.error.isSome || !optTruthy e.response then
          [({ role := .user, content := e.prompt } : Message)]
        else [({ role := .user, content := e.prompt } : Message),
              ({ role := .assistant, content := e.response.getD "" } : Message)] := by
    apply List.map_congr_left
    intro e hin
    exact entry_messages_amended e (h e hin).1 (h e hin).2
  unfold transformHistoryToMessages claimC3Amended
  rw [hmap]

/-- Witness for C3's amended claim at the claim's own example history
`[{prompt:"a", response:"b"}, {prompt:"c", error:"x"}]` with current
prompt `"d"`: the produced sequence is
`[user:"a", assistant:"b", user:"c", user:"d"]`. -/
theorem history_translation_amended_witness :
    (∀ e ∈ [({ prompt := "a", response := some "b" } : Turn),
            ({ prompt := "c", error := some "x" } : Turn)],
       e.prompt ≠ "" ∧ e.error ≠ some "") ∧
    transformHistoryToMessages
        [{ prompt := "a", response := some "b" }, { prompt := "c", error := some "x" }]
        "d" none =
      claimC3Amended
        [{ prompt := "a", response := some "b" }, { prompt := "c", error := some "x" }]
        "d" ∧
    claimC3Amended
        [{ prompt := "a", response := some "b" }, { prompt := "c", error := some "x" }]
        "d" =
      [{ role := .user, content := "a" }, { role := .assistant, content := "b" },
       { role := .user, content := "c" }, { role := .user, content := "d" }] :=
  ⟨by decide,
   history_translation_amended
     [{ prompt := "a", response := some "b" }, { prompt := "c", error := some "x" }]
     "d" (by decide),
   by decide⟩

end SLM
